import Mathlib

/-!
Verification of the Strike & Orientation Compliance Engine of the
Scientific Department bot (src/main.py).

The persistent store (PostgreSQL tables created in `SD_BOT.setup_hook`,
main.py lines 270-367) is embedded as explicit Lean structures; each
operation of the engine (strike issuing, strike removal, the weekly
evaluator `check_weekly_tasks`, the orientation poll
`orientation_reminder_loop`, the orientation assignment paths and the
`/roblox` webhook handler) is translated into a pure function over that
store.  TIMESTAMPTZ values are embedded as `Int` seconds; durations from
`datetime.timedelta` become the corresponding second counts
(`days=90` ↦ `90*86400`, etc.).  External side effects (direct messages,
the Roblox deprovisioning service, Discord kicks, report posting) are
embedded as explicit event lists returned by the operations; their
success or failure is an oracle input (`PollEnv`) so that theorems can
quantify over every outcome.
-/

namespace SDBot

/-- Row of the `strikes` table (main.py lines 329-338, 350-351):
`strike_id SERIAL PRIMARY KEY, member_id BIGINT, reason TEXT,
issued_at TIMESTAMPTZ, expires_at TIMESTAMPTZ, set_by BIGINT (nullable),
auto BOOLEAN`. -/
structure Strike where
  strike_id : Nat
  member_id : Nat
  reason : String
  issued_at : Int
  expires_at : Int
  set_by : Option Nat
  auto : Bool
deriving DecidableEq, Repr

/-- Row of the `orientations` table (main.py lines 318-327, 347-349):
`discord_id BIGINT PRIMARY KEY, assigned_at TIMESTAMPTZ,
deadline TIMESTAMPTZ, passed BOOLEAN, passed_at TIMESTAMPTZ,
warned_5d BOOLEAN, expired_handled BOOLEAN`. -/
structure Orientation where
  discord_id : Nat
  assigned_at : Option Int
  deadline : Option Int
  passed : Bool
  passed_at : Option Int
  warned_5d : Bool
  expired_handled : Bool
deriving DecidableEq, Repr

/-- Row of the `activity_excuses` table (main.py lines 360-367):
`week_key TEXT PRIMARY KEY, reason TEXT, set_by BIGINT, set_at
TIMESTAMPTZ`.  The only writer, the `/activityexcuse` command
(main.py lines 1069-1079), refuses an empty reason, so stored reasons
are non-empty strings. -/
structure Excuse where
  week_key : String
  reason : String
  set_by : Nat
  set_at : Int
deriving DecidableEq, Repr

/-- The persistent store.  `weekly_tasks` rows are `(member_id,
tasks_completed)`, `roblox_time` rows are `(member_id, time_spent)`
seconds, `roblox_sessions` rows are `(roblox_id, start_time)`,
`roblox_verification` rows are `(discord_id, roblox_id)`,
`weekly_task_logs` rows are kept as `(member_id, task)` pairs (the other
columns of that table are never read by the engine).  `next_strike_id`
models the `strike_id` SERIAL sequence. -/
structure DB where
  weekly_tasks : List (Nat × Nat)
  weekly_task_logs : List (Nat × String)
  roblox_time : List (Nat × Nat)
  roblox_sessions : List (Nat × Int)
  roblox_verification : List (Nat × Nat)
  strikes : List Strike
  next_strike_id : Nat
  orientations : List Orientation
  activity_excuses : List Excuse
deriving DecidableEq, Repr

/-- `SELECT v FROM t WHERE k = $1` on a two-column table keyed by the
first column. -/
def lookupNat (t : List (Nat × Nat)) (k : Nat) : Option Nat :=
  (t.find? (fun p => p.1 == k)).map (·.2)

/-- The list of a member's active strikes: rows of `strikes` with this
`member_id` and `expires_at > now` (the predicate used by every active
count in main.py, e.g. line 978). -/
def activeStrikesOf (db : DB) (m : Nat) (now : Int) : List Strike :=
  db.strikes.filter (fun s => s.member_id == m && decide (now < s.expires_at))

/-- `SELECT COUNT(*) FROM strikes WHERE member_id=$1 AND expires_at > $2`
(main.py line 978, 1034, 1116). -/
def activeStrikeCount (db : DB) (m : Nat) (now : Int) : Nat :=
  (activeStrikesOf db m now).length

/-- Result of `issue_strike`: the updated store and the returned active
count. -/
structure IssueResult where
  db : DB
  active : Nat
deriving DecidableEq, Repr

/-- `issue_strike` (main.py lines 968-991): computes `expires = now +
timedelta(days=90)`, inserts the strike row, and re-reads the member's
active count (`expires_at > now`) after insertion.  The best-effort DM
and the log embed are presentation and carry no store effect. -/
def issue_strike (db : DB) (m : Nat) (reason : String) (set_by : Option Nat)
    (auto : Bool) (now : Int) : IssueResult :=
  let expires := now + 90 * 86400
  let s : Strike :=
    { strike_id := db.next_strike_id, member_id := m, reason := reason
      issued_at := now, expires_at := expires, set_by := set_by, auto := auto }
  let db' : DB :=
    { db with strikes := db.strikes ++ [s], next_strike_id := db.next_strike_id + 1 }
  { db := db', active := activeStrikeCount db' m now }

/-- Store statements executed by `issue_strike`, one constructor per SQL
statement in its body (main.py lines 973-978). -/
inductive StoreStmt where
  | insertStrike
  | countActiveStrikes
deriving DecidableEq, Repr

/-- Transactional grouping of `issue_strike`'s two store statements.
The body acquires a connection (`async with bot.db_pool.acquire() as
conn`, main.py line 972) and runs `conn.execute(INSERT ...)` then
`conn.fetchval(SELECT COUNT(*) ...)` with no `conn.transaction()` block,
unlike e.g. the task-logging path (main.py line 576) which does open one.
Under asyncpg each such bare statement runs in its own implicit
transaction, so the grouping is two singleton transactions. -/
def issue_strike_transactions : List (List StoreStmt) :=
  [[StoreStmt.insertStrike], [StoreStmt.countActiveStrikes]]

/-- Result of the `/strikes_add` command body. -/
structure StrikeAdd where
  db : DB
  active_after : Nat
  enforce_calls : Nat
deriving DecidableEq, Repr

/-- `/strikes_add` (main.py lines 1012-1018): issues a manual strike
(`set_by = issuer`, `auto = False`), then calls `enforce_three_strikes`
whenever the returned active count is `>= 3`.  `enforce_calls` counts
those enforcement invocations. -/
def strikes_add (db : DB) (m : Nat) (reason : String) (issuer : Nat)
    (now : Int) : StrikeAdd :=
  let r := issue_strike db m reason (some issuer) false now
  { db := r.db, active_after := r.active
    enforce_calls := if 3 ≤ r.active then 1 else 0 }

/-- The strike pass of the weekly evaluator (main.py lines 1172-1182):
for each target member, `issue_strike(m, "Missed weekly quota",
set_by=None, auto=True)` followed by `enforce_three_strikes` when the
returned count is `>= 3`.  Returns the final store, the members struck
in order, and the members for which enforcement was invoked. -/
def weeklyStrikePass (db : DB) (targets : List Nat) (now : Int) :
    DB × List Nat × List Nat :=
  match targets with
  | [] => (db, [], [])
  | m :: rest =>
    let r := issue_strike db m "Missed weekly quota" none true now
    let enf : List Nat := if 3 ≤ r.active then [m] else []
    let rec_ := weeklyStrikePass r.db rest now
    (rec_.1, m :: rec_.2.1, enf ++ rec_.2.2)

/-! Basic lemmas about active counts under strike insertion. -/

theorem activeStrikesOf_issue_self (db : DB) (m : Nat) (reason : String)
    (sb : Option Nat) (au : Bool) (now : Int) :
    activeStrikesOf (issue_strike db m reason sb au now).db m now =
      activeStrikesOf db m now ++
        [{ strike_id := db.next_strike_id, member_id := m, reason := reason
           issued_at := now, expires_at := now + 90 * 86400, set_by := sb
           auto := au }] := by
  simp only [issue_strike, activeStrikesOf, List.filter_append]
  have h : now < now + 90 * 86400 := by omega
  simp [h]

theorem activeStrikeCount_issue_self (db : DB) (m : Nat) (reason : String)
    (sb : Option Nat) (au : Bool) (now : Int) :
    activeStrikeCount (issue_strike db m reason sb au now).db m now =
      activeStrikeCount db m now + 1 := by
  simp [activeStrikeCount, activeStrikesOf_issue_self]

theorem activeStrikeCount_issue_other (db : DB) (m m' : Nat)
    (hne : m' ≠ m) (reason : String) (sb : Option Nat) (au : Bool)
    (now now' : Int) :
    activeStrikeCount (issue_strike db m' reason sb au now').db m now =
      activeStrikeCount db m now := by
  simp only [issue_strike, activeStrikeCount, activeStrikesOf, List.filter_append]
  have h : (m' == m) = false := by simp [hne]
  simp [h]

theorem issue_strike_active_eq (db : DB) (m : Nat) (reason : String)
    (sb : Option Nat) (au : Bool) (now : Int) :
    (issue_strike db m reason sb au now).active =
      activeStrikeCount db m now + 1 := by
  have h := activeStrikeCount_issue_self db m reason sb au now
  simpa [issue_strike, activeStrikeCount] using h

/-- Claim C1 counterexample.  The spec asserts that the strike insert and
the active-count read of `issue_strike` happen within the same
transaction; in the source they are two bare statements on an acquired
connection with no transaction block, i.e. two separate implicit
transactions: no single transaction of `issue_strike` contains both
statements. -/
theorem issue_strike_not_single_transaction :
    ¬ ∃ t ∈ issue_strike_transactions,
        StoreStmt.insertStrike ∈ t ∧ StoreStmt.countActiveStrikes ∈ t := by
  decide

/-- Claim C1 (amended): issuing a strike at time `now` inserts exactly one
new strike row with `expires_at = now + 90 days` (carrying the given
issuer and auto flag, so `issuer = none` and `auto = true` on the
automated path), and returns the member's active count evaluated after
the insertion, which is exactly one greater than the active count
immediately before the call; the insert and the count read are executed
as two consecutive statements on the same connection, each in its own
implicit transaction (no explicit transaction wraps them). -/
theorem issue_strike_spec (db : DB) (m : Nat) (reason : String)
    (sb : Option Nat) (au : Bool) (now : Int) :
    (issue_strike db m reason sb au now).db.strikes =
        db.strikes ++
          [{ strike_id := db.next_strike_id, member_id := m, reason := reason
             issued_at := now, expires_at := now + 90 * 86400, set_by := sb
             auto := au }] ∧
      (issue_strike db m reason sb au now).active =
        activeStrikeCount db m now + 1 ∧
      (issue_strike db m reason sb au now).active =
        activeStrikeCount (issue_strike db m reason sb au now).db m now ∧
      issue_strike_transactions =
        [[StoreStmt.insertStrike], [StoreStmt.countActiveStrikes]] := by
  refine ⟨rfl, issue_strike_active_eq db m reason sb au now, rfl, rfl⟩

/-! Lemmas about the weekly strike pass. -/

theorem weeklyStrikePass_strikes_mono (targets : List Nat) (db : DB)
    (now : Int) (s : Strike) (hs : s ∈ db.strikes) :
    s ∈ (weeklyStrikePass db targets now).1.strikes := by
  induction targets generalizing db with
  | nil => simpa [weeklyStrikePass] using hs
  | cons m rest ih =>
    simp only [weeklyStrikePass]
    exact ih _ (by simp [issue_strike, hs])

theorem weeklyStrikePass_issues (targets : List Nat) (db : DB) (now : Int)
    (m : Nat) (hm : m ∈ targets) :
    ∃ s ∈ (weeklyStrikePass db targets now).1.strikes,
      s.member_id = m ∧ s.reason = "Missed weekly quota" ∧
        s.set_by = none ∧ s.auto = true ∧ s.issued_at = now ∧
        s.expires_at = now + 90 * 86400 := by
  induction targets generalizing db with
  | nil => cases hm
  | cons t rest ih =>
    rcases List.mem_cons.mp hm with h | h
    · subst h
      refine ⟨{ strike_id := db.next_strike_id, member_id := m
                reason := "Missed weekly quota", issued_at := now
                expires_at := now + 90 * 86400, set_by := none
                auto := true }, ?_, rfl, rfl, rfl, rfl, rfl, rfl⟩
      simp only [weeklyStrikePass]
      exact weeklyStrikePass_strikes_mono rest _ now _ (by simp [issue_strike])
    · simpa only [weeklyStrikePass] using ih _ h

theorem weeklyStrikePass_enforced_iff (targets : List Nat) (db : DB)
    (now : Int) (m : Nat) (hnd : targets.Nodup) :
    m ∈ (weeklyStrikePass db targets now).2.2 ↔
      m ∈ targets ∧ 3 ≤ activeStrikeCount db m now + 1 := by
  induction targets generalizing db with
  | nil => simp [weeklyStrikePass]
  | cons t rest ih =>
    rcases List.nodup_cons.mp hnd with ⟨hnotin, hrest⟩
    by_cases hm : m = t
    · subst hm
      have hmem : m ∉ rest := hnotin
      have hrec := ih (issue_strike db m "Missed weekly quota" none true now).db hrest
      simp only [weeklyStrikePass, List.mem_append]
      rw [hrec]
      constructor
      · intro h
        rcases h with h | h
        · refine ⟨List.mem_cons_self m rest, ?_⟩
          by_cases hc : 3 ≤ (issue_strike db m "Missed weekly quota" none true now).active
          · rw [issue_strike_active_eq] at hc; exact hc
          · simp [hc] at h
        · exact absurd h.1 hmem
      · intro ⟨_, hc⟩
        left
        have : 3 ≤ (issue_strike db m "Missed weekly quota" none true now).active := by
          rw [issue_strike_active_eq]; exact hc
        simp [this]
    · have hcount := activeStrikeCount_issue_other db m t (Ne.symm hm)
        "Missed weekly quota" none true now now
      have hrec := ih (issue_strike db t "Missed weekly quota" none true now).db hrest
      simp only [weeklyStrikePass, List.mem_append]
      rw [hrec, hcount]
      constructor
      · intro h
        rcases h with h | h
        · exfalso
          by_cases hc : 3 ≤ (issue_strike db t "Missed weekly quota" none true now).active
          · simp [hc] at h; exact hm h
          · simp [hc] at h
        · exact ⟨List.mem_cons_of_mem _ h.1, h.2⟩
      · intro ⟨hmem, hc⟩
        right
        exact ⟨(List.mem_cons.mp hmem).resolve_left hm, hc⟩

/-- Concrete store for the C2 counterexample: member 1 already holds
three active strikes at time 0 (each expiring at 7776000 = 90 days). -/
def c2db : DB :=
  { weekly_tasks := [], weekly_task_logs := [], roblox_time := []
    roblox_sessions := [], roblox_verification := []
    strikes :=
      [ { strike_id := 1, member_id := 1, reason := "a", issued_at := 0
          expires_at := 7776000, set_by := some 9, auto := false }
      , { strike_id := 2, member_id := 1, reason := "b", issued_at := 0
          expires_at := 7776000, set_by := some 9, auto := false }
      , { strike_id := 3, member_id := 1, reason := "c", issued_at := 0
          expires_at := 7776000, set_by := some 9, auto := false } ]
    next_strike_id := 4, orientations := [], activity_excuses := [] }

/-- Claim C2 counterexample.  Member 1 of `c2db` already has 3 active
strikes; adding a 4th strike through the `/strikes_add` path still
invokes `enforce_three_strikes` (the guard is `active_after >= 3`, with
no already-enforced suppression), contradicting the claim that a 4th
strike does not trigger the removal logic again. -/
theorem strikes_add_retriggers_on_fourth :
    3 ≤ activeStrikeCount c2db 1 0 ∧
      (strikes_add c2db 1 "extra" 9 0).enforce_calls ≠ 0 := by
  decide

/-- Claim C2 (amended): on both the manual `/strikes_add` path and the
weekly evaluator's automatic strike pass, `enforce_three_strikes` is
invoked exactly once per issued strike whenever the post-insertion
active count reaches 3 or more.  In particular issuing a 3rd strike to a
member with exactly 2 active strikes triggers exactly one invocation,
but issuing a further strike to a member who already has 3 or more
active strikes triggers the removal logic again — there is no
caller-side suppression for already-enforced members. -/
theorem three_strike_gate (db : DB) (m : Nat) (reason : String)
    (issuer : Nat) (now : Int) (targets : List Nat)
    (hnd : targets.Nodup) :
    ((strikes_add db m reason issuer now).enforce_calls =
        if 3 ≤ activeStrikeCount db m now + 1 then 1 else 0) ∧
      (activeStrikeCount db m now = 2 →
        (strikes_add db m reason issuer now).enforce_calls = 1) ∧
      (3 ≤ activeStrikeCount db m now →
        (strikes_add db m reason issuer now).enforce_calls = 1) ∧
      (m ∈ (weeklyStrikePass db targets now).2.2 ↔
        m ∈ targets ∧ 3 ≤ activeStrikeCount db m now + 1) := by
  have hq : (strikes_add db m reason issuer now).enforce_calls =
      if 3 ≤ activeStrikeCount db m now + 1 then 1 else 0 := by
    simp only [strikes_add, issue_strike_active_eq]
  refine ⟨hq, ?_, ?_, weeklyStrikePass_enforced_iff targets db now m hnd⟩
  · intro h2; rw [hq, h2]; norm_num
  · intro h3
    rw [hq, if_pos (by omega)]

/-- Concrete store for the C2 witness: member 1 holds exactly 2 active
strikes at time 0. -/
def c2db2 : DB :=
  { weekly_tasks := [], weekly_task_logs := [], roblox_time := []
    roblox_sessions := [], roblox_verification := []
    strikes :=
      [ { strike_id := 1, member_id := 1, reason := "a", issued_at := 0
          expires_at := 7776000, set_by := some 9, auto := false }
      , { strike_id := 2, member_id := 1, reason := "b", issued_at := 0
          expires_at := 7776000, set_by := some 9, auto := false } ]
    next_strike_id := 3, orientations := [], activity_excuses := [] }

/-- Witness for `three_strike_gate`: member 1 of `c2db2` has exactly
2 active strikes, so a 3rd strike triggers exactly one enforcement
invocation, on the manual path and on the weekly pass alike. -/
theorem three_strike_gate_witness :
    [1, 2].Nodup ∧
      (strikes_add c2db2 1 "quota" 9 0).enforce_calls = 1 ∧
      (1 ∈ (weeklyStrikePass c2db2 [1, 2] 0).2.2 ↔
        1 ∈ [1, 2] ∧ 3 ≤ activeStrikeCount c2db2 1 0 + 1) :=
  ⟨by decide,
   (three_strike_gate c2db2 1 "quota" 9 0 [1, 2] (by decide)).2.1 (by decide),
   (three_strike_gate c2db2 1 "quota" 9 0 [1, 2] (by decide)).2.2.2⟩

/-! The weekly evaluator `check_weekly_tasks` (main.py lines 1086-1187).
The roster (non-bot department role members, line 1109) and the guild
member resolver (`guild.get_member`, lines 1128-1130 and 1141-1142) are
inputs: `roster` is the list of department member ids and `present m`
tells whether `guild.get_member m` succeeds. -/

/-- `tasks_map.get(member_id, 0)` (main.py line 1131). -/
def tasksDone (db : DB) (m : Nat) : Nat :=
  (lookupNat db.weekly_tasks m).getD 0

/-- `(time_map.get(member_id, 0)) // 60` (main.py line 1132). -/
def timeMinutes (db : DB) (m : Nat) : Nat :=
  (lookupNat db.roblox_time m).getD 0 / 60

/-- Membership in `considered_ids = set(tasks_map) | set(time_map)`
(main.py line 1125): the member has a row in at least one of the two
counter tables. -/
def touched (db : DB) (m : Nat) : Bool :=
  (lookupNat db.weekly_tasks m).isSome || (lookupNat db.roblox_time m).isSome

/-- The met condition of main.py line 1134: `tasks_done >=
WEEKLY_REQUIREMENT and time_done_minutes >= WEEKLY_TIME_REQUIREMENT`. -/
def metCond (db : DB) (taskReq timeReq m : Nat) : Bool :=
  decide (taskReq ≤ tasksDone db m) && decide (timeReq ≤ timeMinutes db m)

/-- The `met` bucket (main.py lines 1127-1135): roster members with a
counter row, resolvable in the guild, meeting both requirements. -/
def metList (db : DB) (roster : List Nat) (present : Nat → Bool)
    (taskReq timeReq : Nat) : List Nat :=
  roster.filter (fun m => present m && touched db m && metCond db taskReq timeReq m)

/-- The `not_met` bucket (main.py lines 1127-1137): touched by a counter
but failing the met condition. -/
def notMetList (db : DB) (roster : List Nat) (present : Nat → Bool)
    (taskReq timeReq : Nat) : List Nat :=
  roster.filter (fun m => present m && touched db m && !metCond db taskReq timeReq m)

/-- The `zero` bucket (main.py lines 1139-1144): roster members with no
row in either counter table (`dept_member_ids - considered_ids`). -/
def zeroList (db : DB) (roster : List Nat) (present : Nat → Bool) : List Nat :=
  roster.filter (fun m => present m && !touched db m)

/-- The content of the posted weekly summary (main.py lines 1146-1170):
the week key, the excuse reason when the run is excused (lines
1156-1158), and the three buckets with their per-member statistics and
active strike counts.  String chunking of the embed is presentation and
not modelled. -/
structure Report where
  week : String
  excused : Option String
  met : List (Nat × Nat)
  not_met : List (Nat × Nat × Nat × Nat)
  zero : List (Nat × Nat)
deriving DecidableEq, Repr

/-- Result of one firing of the weekly evaluator. -/
structure WeeklyRun where
  db : DB
  report : Report
  struck : List Nat
  enforced : List Nat
deriving DecidableEq, Repr

/-- `SELECT week_key, reason FROM activity_excuses WHERE week_key=$1`
(main.py line 1095). -/
def lookupExcuse (db : DB) (wk : String) : Option Excuse :=
  db.activity_excuses.find? (fun e => e.week_key == wk)

/-- `TRUNCATE TABLE weekly_tasks, weekly_task_logs, roblox_time,
roblox_sessions` (main.py line 1186). -/
def truncate_weekly_tables (db : DB) : DB :=
  { db with weekly_tasks := [], weekly_task_logs := []
            roblox_time := [], roblox_sessions := [] }

/-- One firing of `check_weekly_tasks` past the Sunday gate (main.py
lines 1086-1187): look up the week's excuse (Python truthiness of the
`reason` column, lines 1093-1096), classify the roster, build the
report, issue strikes to the not-met and zero buckets unless excused
(lines 1172-1182), and unconditionally truncate the weekly tables
(lines 1184-1186). -/
def check_weekly_tasks (db : DB) (roster : List Nat) (present : Nat → Bool)
    (wk : String) (taskReq timeReq : Nat) (now : Int) : WeeklyRun :=
  let excusedReason : Option String := (lookupExcuse db wk).map (·.reason)
  let excusedTruthy : Bool := excusedReason.getD "" != ""
  let report : Report :=
    { week := wk
      excused := if excusedTruthy then excusedReason else none
      met := (metList db roster present taskReq timeReq).map
          (fun x => (x, activeStrikeCount db x now))
      not_met := (notMetList db roster present taskReq timeReq).map
          (fun x => (x, tasksDone db x, timeMinutes db x, activeStrikeCount db x now))
      zero := (zeroList db roster present).map
          (fun x => (x, activeStrikeCount db x now)) }
  let targets := notMetList db roster present taskReq timeReq ++
      zeroList db roster present
  let pass := if excusedTruthy then (db, ([] : List Nat), ([] : List Nat))
      else weeklyStrikePass db targets now
  { db := truncate_weekly_tables pass.1, report := report
    struck := pass.2.1, enforced := pass.2.2 }

/-! Classification lemmas. -/

theorem touched_false_counts (db : DB) (m : Nat) (h : touched db m = false) :
    tasksDone db m = 0 ∧ timeMinutes db m = 0 := by
  unfold touched at h
  rw [Bool.or_eq_false_iff] at h
  constructor
  · cases hx : lookupNat db.weekly_tasks m with
    | none => simp [tasksDone, hx]
    | some v => rw [hx] at h; simp at h
  · cases hx : lookupNat db.roblox_time m with
    | none => simp [timeMinutes, hx]
    | some v => rw [hx] at h; simp at h

theorem metCond_touched (db : DB) (taskReq timeReq m : Nat)
    (hreq : 0 < taskReq ∨ 0 < timeReq)
    (hc : taskReq ≤ tasksDone db m ∧ timeReq ≤ timeMinutes db m) :
    touched db m = true := by
  cases ht : touched db m with
  | true => rfl
  | false =>
    obtain ⟨h1, h2⟩ := touched_false_counts db m ht
    rw [h1] at hc; rw [h2] at hc
    rcases hreq with h | h <;> omega

theorem mem_metList_iff (db : DB) (roster : List Nat) (present : Nat → Bool)
    (taskReq timeReq m : Nat) (hm : m ∈ roster) (hp : present m = true)
    (hreq : 0 < taskReq ∨ 0 < timeReq) :
    m ∈ metList db roster present taskReq timeReq ↔
      taskReq ≤ tasksDone db m ∧ timeReq ≤ timeMinutes db m := by
  unfold metList
  rw [List.mem_filter]
  constructor
  · intro h
    have := h.2
    simp only [Bool.and_eq_true, metCond, decide_eq_true_eq] at this
    exact this.2
  · intro hc
    have ht := metCond_touched db taskReq timeReq m hreq hc
    refine ⟨hm, ?_⟩
    simp only [Bool.and_eq_true, metCond, decide_eq_true_eq]
    exact ⟨⟨hp, ht⟩, hc⟩

theorem mem_notMetList_iff (db : DB) (roster : List Nat)
    (present : Nat → Bool) (taskReq timeReq m : Nat) (hm : m ∈ roster)
    (hp : present m = true) :
    m ∈ notMetList db roster present taskReq timeReq ↔
      touched db m = true ∧
        ¬(taskReq ≤ tasksDone db m ∧ timeReq ≤ timeMinutes db m) := by
  unfold notMetList
  rw [List.mem_filter]
  simp only [Bool.and_eq_true, Bool.not_eq_true', metCond,
    Bool.and_eq_false_iff, decide_eq_false_iff_not]
  constructor
  · intro h
    refine ⟨h.2.1.2, ?_⟩
    rcases h.2.2 with h' | h' <;> intro hc
    · exact h' hc.1
    · exact h' hc.2
  · intro h
    refine ⟨hm, ⟨hp, h.1⟩, ?_⟩
    by_cases h1 : taskReq ≤ tasksDone db m
    · right; intro h2; exact h.2 ⟨h1, h2⟩
    · left; exact h1

theorem mem_zeroList_iff (db : DB) (roster : List Nat)
    (present : Nat → Bool) (m : Nat) (hm : m ∈ roster)
    (hp : present m = true) :
    m ∈ zeroList db roster present ↔ touched db m = false := by
  unfold zeroList
  rw [List.mem_filter]
  simp only [Bool.and_eq_true, Bool.not_eq_true']
  constructor
  · intro h; exact h.2.2
  · intro h; exact ⟨hm, hp, h⟩

theorem report_met_ids (db : DB) (roster : List Nat) (present : Nat → Bool)
    (wk : String) (taskReq timeReq : Nat) (now : Int) :
    (check_weekly_tasks db roster present wk taskReq timeReq now).report.met.map
        (fun x => x.1) = metList db roster present taskReq timeReq := by
  simp [check_weekly_tasks, List.map_map, Function.comp_def]

theorem report_not_met_ids (db : DB) (roster : List Nat)
    (present : Nat → Bool) (wk : String) (taskReq timeReq : Nat) (now : Int) :
    (check_weekly_tasks db roster present wk taskReq timeReq now).report.not_met.map
        (fun x => x.1) = notMetList db roster present taskReq timeReq := by
  simp [check_weekly_tasks, List.map_map, Function.comp_def]

theorem report_zero_ids (db : DB) (roster : List Nat) (present : Nat → Bool)
    (wk : String) (taskReq timeReq : Nat) (now : Int) :
    (check_weekly_tasks db roster present wk taskReq timeReq now).report.zero.map
        (fun x => x.1) = zeroList db roster present := by
  simp [check_weekly_tasks, List.map_map, Function.comp_def]

/-- Claim C3: in the weekly evaluation, every roster member resolvable in
the guild falls into exactly one of the three report buckets: Met iff
both requirements are satisfied (task count, and whole minutes of time
spent), Not-met iff the member has a row in at least one counter table
but fails the met condition, and Zero-activity iff the member has no row
in either counter table.  (The requirement hypothesis rules out the
degenerate configuration `taskReq = timeReq = 0`, under which a rowless
member would vacuously satisfy the met condition; the deployed defaults
are 3 tasks and 45 minutes.) -/
theorem weekly_classification (db : DB) (roster : List Nat)
    (present : Nat → Bool) (wk : String) (taskReq timeReq : Nat) (now : Int)
    (m : Nat) (hm : m ∈ roster) (hp : present m = true)
    (hreq : 0 < taskReq ∨ 0 < timeReq) :
    ((m ∈ (check_weekly_tasks db roster present wk taskReq timeReq now).report.met.map
          (fun x => x.1)) ↔
        taskReq ≤ tasksDone db m ∧ timeReq ≤ timeMinutes db m) ∧
      ((m ∈ (check_weekly_tasks db roster present wk taskReq timeReq now).report.not_met.map
          (fun x => x.1)) ↔
        touched db m = true ∧
          ¬(taskReq ≤ tasksDone db m ∧ timeReq ≤ timeMinutes db m)) ∧
      ((m ∈ (check_weekly_tasks db roster present wk taskReq timeReq now).report.zero.map
          (fun x => x.1)) ↔ touched db m = false) ∧
      ((m ∈ (check_weekly_tasks db roster present wk taskReq timeReq now).report.met.map
          (fun x => x.1)) ∨
        (m ∈ (check_weekly_tasks db roster present wk taskReq timeReq now).report.not_met.map
          (fun x => x.1)) ∨
        (m ∈ (check_weekly_tasks db roster present wk taskReq timeReq now).report.zero.map
          (fun x => x.1))) ∧
      ¬((m ∈ (check_weekly_tasks db roster present wk taskReq timeReq now).report.met.map
          (fun x => x.1)) ∧
        (m ∈ (check_weekly_tasks db roster present wk taskReq timeReq now).report.not_met.map
          (fun x => x.1))) ∧
      ¬((m ∈ (check_weekly_tasks db roster present wk taskReq timeReq now).report.met.map
          (fun x => x.1)) ∧
        (m ∈ (check_weekly_tasks db roster present wk taskReq timeReq now).report.zero.map
          (fun x => x.1))) ∧
      ¬((m ∈ (check_weekly_tasks db roster present wk taskReq timeReq now).report.not_met.map
          (fun x => x.1)) ∧
        (m ∈ (check_weekly_tasks db roster present wk taskReq timeReq now).report.zero.map
          (fun x => x.1))) := by
  rw [report_met_ids, report_not_met_ids, report_zero_ids]
  have h1 := mem_metList_iff db roster present taskReq timeReq m hm hp hreq
  have h2 := mem_notMetList_iff db roster present taskReq timeReq m hm hp
  have h3 := mem_zeroList_iff db roster present m hm hp
  refine ⟨h1, h2, h3, ?_, ?_, ?_, ?_⟩
  · rw [h1, h2, h3]
    by_cases hc : taskReq ≤ tasksDone db m ∧ timeReq ≤ timeMinutes db m
    · exact Or.inl hc
    · cases ht : touched db m with
      | true => exact Or.inr (Or.inl ⟨rfl, hc⟩)
      | false => exact Or.inr (Or.inr rfl)
  · rw [h1, h2]; rintro ⟨hc, _, hnc⟩; exact hnc hc
  · rw [h1, h3]
    rintro ⟨hc, ht⟩
    rw [metCond_touched db taskReq timeReq m hreq hc] at ht
    cases ht
  · rw [h2, h3]; rintro ⟨⟨ht, _⟩, ht'⟩; rw [ht] at ht'; cases ht'

/-- Concrete store for the C3 witness: member 1 logged 2 tasks and 3000
seconds (50 minutes) of time. -/
def c3db : DB :=
  { weekly_tasks := [(1, 2)], weekly_task_logs := [], roblox_time := [(1, 3000)]
    roblox_sessions := [], roblox_verification := [], strikes := []
    next_strike_id := 1, orientations := [], activity_excuses := [] }

/-- Witness for `weekly_classification`: with a 3-task / 45-minute
requirement, a member with 2 tasks and 3000 seconds (50 minutes) is
classified Not-met even though the time requirement is satisfied. -/
theorem weekly_classification_witness :
    1 ∈ [1] ∧ (0 < 3 ∨ 0 < 45) ∧
      1 ∈ (check_weekly_tasks c3db [1] (fun _ => true) "2025-W41" 3 45 0).report.not_met.map
          (fun x => x.1) :=
  ⟨by decide, by decide,
   (weekly_classification c3db [1] (fun _ => true) "2025-W41" 3 45 0 1
      (by decide) rfl (by decide)).2.1.mpr (by decide)⟩

/-- Claim C4: when an activity excuse exists for the week (with its
necessarily non-empty reason), the weekly run issues zero strikes and
invokes no enforcement, but still produces its full report — naming the
excuse reason and all three buckets — and still clears the weekly
counters; when no excuse row exists, a strike with reason "Missed weekly
quota", null issuer and `auto = true` is issued to every Not-met and
every Zero-activity member. -/
theorem weekly_excuse_spec (db : DB) (roster : List Nat)
    (present : Nat → Bool) (wk : String) (taskReq timeReq : Nat) (now : Int) :
    (∀ e : Excuse, lookupExcuse db wk = some e → e.reason ≠ "" →
      (check_weekly_tasks db roster present wk taskReq timeReq now).struck = [] ∧
        (check_weekly_tasks db roster present wk taskReq timeReq now).enforced = [] ∧
        (check_weekly_tasks db roster present wk taskReq timeReq now).report.week = wk ∧
        (check_weekly_tasks db roster present wk taskReq timeReq now).report.excused =
          some e.reason ∧
        (check_weekly_tasks db roster present wk taskReq timeReq now).report.met =
          (metList db roster present taskReq timeReq).map
            (fun x => (x, activeStrikeCount db x now)) ∧
        (check_weekly_tasks db roster present wk taskReq timeReq now).report.not_met =
          (notMetList db roster present taskReq timeReq).map
            (fun x => (x, tasksDone db x, timeMinutes db x, activeStrikeCount db x now)) ∧
        (check_weekly_tasks db roster present wk taskReq timeReq now).report.zero =
          (zeroList db roster present).map (fun x => (x, activeStrikeCount db x now)) ∧
        (check_weekly_tasks db roster present wk taskReq timeReq now).db.weekly_tasks = [] ∧
        (check_weekly_tasks db roster present wk taskReq timeReq now).db.roblox_time = [] ∧
        (check_weekly_tasks db roster present wk taskReq timeReq now).db.roblox_sessions = [] ∧
        (check_weekly_tasks db roster present wk taskReq timeReq now).db.strikes =
          db.strikes) ∧
      (lookupExcuse db wk = none →
        ∀ x, (x ∈ notMetList db roster present taskReq timeReq ∨
              x ∈ zeroList db roster present) →
          ∃ s ∈ (check_weekly_tasks db roster present wk taskReq timeReq now).db.strikes,
            s.member_id = x ∧ s.reason = "Missed weekly quota" ∧ s.set_by = none ∧
              s.auto = true ∧ s.issued_at = now ∧ s.expires_at = now + 90 * 86400) := by
  constructor
  · intro e he hne
    have hb : (e.reason != "") = true := bne_iff_ne.mpr hne
    simp [check_weekly_tasks, he, hb, truncate_weekly_tables]
  · intro hnone x hx
    have hxt : x ∈ notMetList db roster present taskReq timeReq ++
        zeroList db roster present := List.mem_append.mpr hx
    obtain ⟨s, hs, hprops⟩ := weeklyStrikePass_issues _ db now x hxt
    refine ⟨s, ?_, hprops⟩
    simp only [check_weekly_tasks, hnone, Option.map_none', Option.getD_none,
      bne_self_eq_false, if_false, truncate_weekly_tables]
    exact hs

/-- Concrete store for the first half of the C4 witness: week 2025-W40
is excused with reason "Holiday"; member 1 has one weekly task row. -/
def c4dbE : DB :=
  { weekly_tasks := [(1, 1)], weekly_task_logs := [], roblox_time := []
    roblox_sessions := [], roblox_verification := [], strikes := []
    next_strike_id := 1, orientations := []
    activity_excuses := [{ week_key := "2025-W40", reason := "Holiday"
                           set_by := 9, set_at := 0 }] }

/-- Concrete store for the second half of the C4 witness: no excuse row;
member 1 has one weekly task row (below the 3-task requirement). -/
def c4dbN : DB :=
  { weekly_tasks := [(1, 1)], weekly_task_logs := [], roblox_time := []
    roblox_sessions := [], roblox_verification := [], strikes := []
    next_strike_id := 1, orientations := [], activity_excuses := [] }

/-- Witness for `weekly_excuse_spec`: on the excused store the run
strikes nobody, reports the excuse reason, and truncates the counters;
on the unexcused store the Not-met member 1 receives an automatic
"Missed weekly quota" strike. -/
theorem weekly_excuse_spec_witness :
    (check_weekly_tasks c4dbE [1] (fun _ => true) "2025-W40" 3 45 0).struck = [] ∧
      (check_weekly_tasks c4dbE [1] (fun _ => true) "2025-W40" 3 45 0).report.excused =
        some "Holiday" ∧
      (check_weekly_tasks c4dbE [1] (fun _ => true) "2025-W40" 3 45 0).db.weekly_tasks = [] ∧
      ∃ s ∈ (check_weekly_tasks c4dbN [1] (fun _ => true) "2025-W40" 3 45 0).db.strikes,
        s.member_id = 1 ∧ s.reason = "Missed weekly quota" ∧ s.set_by = none ∧
          s.auto = true ∧ s.issued_at = 0 ∧ s.expires_at = 0 + 90 * 86400 :=
  ⟨((weekly_excuse_spec c4dbE [1] (fun _ => true) "2025-W40" 3 45 0).1
      { week_key := "2025-W40", reason := "Holiday", set_by := 9, set_at := 0 }
      (by decide) (by decide)).1,
   ((weekly_excuse_spec c4dbE [1] (fun _ => true) "2025-W40" 3 45 0).1
      { week_key := "2025-W40", reason := "Holiday", set_by := 9, set_at := 0 }
      (by decide) (by decide)).2.2.2.1,
   ((weekly_excuse_spec c4dbE [1] (fun _ => true) "2025-W40" 3 45 0).1
      { week_key := "2025-W40", reason := "Holiday", set_by := 9, set_at := 0 }
      (by decide) (by decide)).2.2.2.2.2.2.2.1,
   (weekly_excuse_spec c4dbN [1] (fun _ => true) "2025-W40" 3 45 0).2
      (by decide) 1 (Or.inl (by decide))⟩

/-- Claim C5: after a completed weekly run the WeeklyCounter, TimeCounter
and Session tables are empty — the reset also truncates the weekly task
log and applies to all members, not only the evaluated roster, and runs
regardless of excused status — while the truncate step leaves the strike
ledger, the orientation records and the remaining tables of its input
untouched. -/
theorem weekly_reset_spec (db : DB) (roster : List Nat)
    (present : Nat → Bool) (wk : String) (taskReq timeReq : Nat) (now : Int) :
    (check_weekly_tasks db roster present wk taskReq timeReq now).db.weekly_tasks = [] ∧
      (check_weekly_tasks db roster present wk taskReq timeReq now).db.weekly_task_logs = [] ∧
      (check_weekly_tasks db roster present wk taskReq timeReq now).db.roblox_time = [] ∧
      (check_weekly_tasks db roster present wk taskReq timeReq now).db.roblox_sessions = [] ∧
      (∀ d : DB, (truncate_weekly_tables d).strikes = d.strikes ∧
        (truncate_weekly_tables d).orientations = d.orientations ∧
        (truncate_weekly_tables d).next_strike_id = d.next_strike_id ∧
        (truncate_weekly_tables d).activity_excuses = d.activity_excuses ∧
        (truncate_weekly_tables d).roblox_verification = d.roblox_verification ∧
        (truncate_weekly_tables d).weekly_tasks = [] ∧
        (truncate_weekly_tables d).weekly_task_logs = [] ∧
        (truncate_weekly_tables d).roblox_time = [] ∧
        (truncate_weekly_tables d).roblox_sessions = []) :=
  ⟨rfl, rfl, rfl, rfl, fun _ => ⟨rfl, rfl, rfl, rfl, rfl, rfl, rfl, rfl, rfl⟩⟩

/-! The orientation poll `orientation_reminder_loop` (main.py lines
1189-1255).  The loop fetches the non-passed orientation rows, then for
each row fires the one-shot 5-day warning (lines 1213-1223) and the
one-shot overdue enforcement (lines 1225-1253).  `PollEnv` carries the
ambient Discord state: whether the alert channel resolves, whether
`find_member` (main.py lines 157-162) resolves a member, and the
success of the best-effort DM, the Roblox removal call and the kick —
outcomes the code only logs, never branches on. -/

/-- `timedelta(days=4, hours=23)` (main.py line 1214), in seconds. -/
def ORIENT_WARN_LO : Int := 4 * 86400 + 23 * 3600

/-- `timedelta(days=5, hours=1)` (main.py line 1214), in seconds. -/
def ORIENT_WARN_HI : Int := 5 * 86400 + 3600

/-- Ambient Discord/HTTP state observed by one poll run. -/
structure PollEnv where
  alertChannel : Bool
  present : Nat → Bool
  dmOk : Nat → Bool
  robloxOk : Nat → Bool
  kickOk : Nat → Bool

/-- External actions performed by a poll run, in order. -/
inductive PollEvent where
  | warnNotice (memberId : Nat)
  | expiredDM (memberId : Nat) (delivered : Bool)
  | robloxRemove (memberId : Nat) (ok : Bool)
  | kick (memberId : Nat) (ok : Bool)
deriving DecidableEq, Repr

/-- The member an event concerns. -/
def eventMember : PollEvent → Nat
  | .warnNotice k => k
  | .expiredDM k _ => k
  | .robloxRemove k _ => k
  | .kick k _ => k

/-- Whether an event is one of the three expiry-enforcement actions for
member `m` (the DM notice, the Roblox deprovisioning call, the kick). -/
def expiryEventFor (m : Nat) : PollEvent → Bool
  | .warnNotice _ => false
  | .expiredDM k _ => k == m
  | .robloxRemove k _ => k == m
  | .kick k _ => k == m

/-- `SELECT ... FROM orientations WHERE discord_id = $1`. -/
def getOrientation (db : DB) (m : Nat) : Option Orientation :=
  db.orientations.find? (fun o => o.discord_id == m)

/-- `UPDATE orientations SET ... WHERE discord_id = $1`. -/
def updateOrientations (db : DB) (k : Nat) (f : Orientation → Orientation) : DB :=
  let l := db.orientations.map (fun o => if o.discord_id == k then f o else o)
  { db with orientations := l }

/-- `UPDATE orientations SET warned_5d = TRUE WHERE discord_id = $1`
(main.py line 1223). -/
def setWarned (db : DB) (m : Nat) : DB :=
  updateOrientations db m (fun o => { o with warned_5d := true })

/-- `UPDATE orientations SET expired_handled = TRUE WHERE discord_id = $1`
(main.py line 1253). -/
def setExpiredHandled (db : DB) (m : Nat) : DB :=
  updateOrientations db m (fun o => { o with expired_handled := true })

/-- The 5-day-warning branch for one row (main.py lines 1213-1223):
fires only when the latch is clear, the remaining time lies in the
warning window, the alert channel resolves and the member resolves. -/
def warnStep (env : PollEnv) (now : Int) (db : DB) (r : Orientation)
    (d : Int) : DB × List PollEvent :=
  if r.warned_5d = false ∧ ORIENT_WARN_LO ≤ d - now ∧ d - now ≤ ORIENT_WARN_HI then
    if env.alertChannel && env.present r.discord_id then
      (setWarned db r.discord_id, [PollEvent.warnNotice r.discord_id])
    else (db, [])
  else (db, [])

/-- The overdue-enforcement branch for one row (main.py lines
1225-1253): when the deadline has passed and the latch is clear, and the
member resolves, attempt the DM, the Roblox removal and the kick —
their outcomes are logged but never branched on — and set the
`expired_handled` latch. -/
def expireStep (env : PollEnv) (now : Int) (db : DB) (r : Orientation)
    (d : Int) : DB × List PollEvent :=
  if d - now ≤ 0 ∧ r.expired_handled = false then
    if env.present r.discord_id then
      (setExpiredHandled db r.discord_id,
       [PollEvent.expiredDM r.discord_id (env.dmOk r.discord_id),
        PollEvent.robloxRemove r.discord_id (env.robloxOk r.discord_id),
        PollEvent.kick r.discord_id (env.kickOk r.discord_id)])
    else (db, [])
  else (db, [])

/-- Processing of one fetched row (main.py lines 1203-1253): a row with
a null deadline is skipped; otherwise the warning branch then the
expiry branch run on the snapshot row values. -/
def pollRow (env : PollEnv) (now : Int) (db : DB) (r : Orientation) :
    DB × List PollEvent :=
  match r.deadline with
  | none => (db, [])
  | some d =>
    let w := warnStep env now db r d
    let e := expireStep env now w.1 r d
    (e.1, w.2 ++ e.2)

/-- Sequential processing of the fetched snapshot rows. -/
def pollRows (env : PollEnv) (now : Int) : DB → List Orientation → DB × List PollEvent
  | db, [] => (db, [])
  | db, r :: rest =>
    let x := pollRow env now db r
    let y := pollRows env now x.1 rest
    (y.1, x.2 ++ y.2)

/-- One run of `orientation_reminder_loop` (main.py lines 1190-1255):
fetch the rows with `passed = FALSE` (lines 1195-1198) and process each
against the snapshot. -/
def orientation_reminder_loop (env : PollEnv) (now : Int) (db : DB) :
    DB × List PollEvent :=
  pollRows env now db (db.orientations.filter (fun o => o.passed == false))

/-! Lookup/update lemmas for the orientations table. -/

theorem find?_updList (l : List Orientation) (k : Nat)
    (f : Orientation → Orientation)
    (hf : ∀ o, (f o).discord_id = o.discord_id) (m : Nat) :
    (l.map (fun o => if o.discord_id == k then f o else o)).find?
        (fun o => o.discord_id == m) =
      if m = k then (l.find? (fun o => o.discord_id == m)).map f
      else l.find? (fun o => o.discord_id == m) := by
  induction l with
  | nil => by_cases h : m = k <;> simp [h]
  | cons o rest ih =>
    rw [List.map_cons]
    by_cases hk : o.discord_id = k
    · have hhead : (if (o.discord_id == k) then f o else o) = f o := by simp [hk]
      rw [hhead]
      by_cases hm : o.discord_id = m
      · have hmk : m = k := by rw [← hm, hk]
        have hb1 : ((f o).discord_id == m) = true := by simp [hf, hm]
        have hb2 : (o.discord_id == m) = true := by simp [hm]
        simp only [List.find?, hb1, hb2, if_pos hmk, Option.map_some']
      · have hmk : m ≠ k := fun h => hm (hk.trans h.symm)
        have hb1 : ((f o).discord_id == m) = false := by simp [hf, hm]
        have hb2 : (o.discord_id == m) = false := by simp [hm]
        simp only [List.find?, hb1, hb2, if_neg hmk]
        rw [ih, if_neg hmk]
    · have hhead : (if (o.discord_id == k) then f o else o) = o := by simp [hk]
      rw [hhead]
      by_cases hm : o.discord_id = m
      · have hmk : m ≠ k := fun h => hk (hm.trans h)
        have hb2 : (o.discord_id == m) = true := by simp [hm]
        simp only [List.find?, hb2, if_neg hmk]
      · have hb2 : (o.discord_id == m) = false := by simp [hm]
        by_cases hmk : m = k
        · simp only [List.find?, hb2, if_pos hmk]
          rw [ih, if_pos hmk]
        · simp only [List.find?, hb2, if_neg hmk]
          rw [ih, if_neg hmk]

theorem getOrientation_updateOrientations (db : DB) (k : Nat)
    (f : Orientation → Orientation)
    (hf : ∀ o, (f o).discord_id = o.discord_id) (m : Nat) :
    getOrientation (updateOrientations db k f) m =
      if m = k then (getOrientation db m).map f else getOrientation db m := by
  simp only [getOrientation, updateOrientations]
  exact find?_updList db.orientations k f hf m

theorem updateOrientations_keys (db : DB) (k : Nat)
    (f : Orientation → Orientation)
    (hf : ∀ o, (f o).discord_id = o.discord_id) :
    (updateOrientations db k f).orientations.map (fun o => o.discord_id) =
      db.orientations.map (fun o => o.discord_id) := by
  simp only [updateOrientations]
  generalize db.orientations = l
  induction l with
  | nil => rfl
  | cons o rest ih =>
    rw [List.map_cons, List.map_cons, List.map_cons, ih]
    congr 1
    by_cases hk : o.discord_id = k <;> simp [hk, hf]

theorem find?_eq_of_mem_nodup (l : List Orientation) (m : Nat)
    (r : Orientation) (hnd : (l.map (fun o => o.discord_id)).Nodup)
    (hr : r ∈ l) (hk : r.discord_id = m) :
    l.find? (fun o => o.discord_id == m) = some r := by
  induction l with
  | nil => cases hr
  | cons a rest ih =>
    rcases List.mem_cons.mp hr with h | h
    · subst h
      have hb : (r.discord_id == m) = true := by simp [hk]
      simp only [List.find?, hb]
    · have hnd' := hnd
      rw [List.map_cons, List.nodup_cons] at hnd'
      have ha : a.discord_id ≠ m := by
        intro hae
        exact hnd'.1 (hae ▸ hk ▸ List.mem_map_of_mem (fun o => o.discord_id) h)
      have hb : (a.discord_id == m) = false := by simp [ha]
      simp only [List.find?, hb]
      exact ih hnd'.2 h

/-! Per-row lemmas for the poll. -/

theorem pollRow_events_member_all (env : PollEnv) (now : Int) (db : DB)
    (r : Orientation) :
    (pollRow env now db r).2.all (fun e => eventMember e == r.discord_id) = true := by
  unfold pollRow
  cases hd : r.deadline with
  | none => rfl
  | some d =>
    simp only [warnStep, expireStep]
    split_ifs <;> simp [eventMember]

theorem pollRow_events_member (env : PollEnv) (now : Int) (db : DB)
    (r : Orientation) (e : PollEvent)
    (he : e ∈ (pollRow env now db r).2) : eventMember e = r.discord_id := by
  have h := pollRow_events_member_all env now db r
  rw [List.all_eq_true] at h
  simpa using h e he

theorem pollRow_keys (env : PollEnv) (now : Int) (db : DB)
    (r : Orientation) :
    (pollRow env now db r).1.orientations.map (fun o => o.discord_id) =
      db.orientations.map (fun o => o.discord_id) := by
  unfold pollRow
  cases hd : r.deadline with
  | none => rfl
  | some d =>
    simp only [warnStep, expireStep]
    split_ifs <;>
      simp [setWarned, setExpiredHandled, updateOrientations_keys]

theorem pollRow_getOrientation_ne (env : PollEnv) (now : Int) (db : DB)
    (r : Orientation) (m : Nat) (h : m ≠ r.discord_id) :
    getOrientation (pollRow env now db r).1 m = getOrientation db m := by
  unfold pollRow
  cases hd : r.deadline with
  | none => rfl
  | some d =>
    simp only [warnStep, expireStep]
    split_ifs <;>
      simp [setWarned, setExpiredHandled, getOrientation_updateOrientations, h]

theorem pollRow_absent (env : PollEnv) (now : Int) (db : DB)
    (r : Orientation) (h : env.present r.discord_id = false) :
    pollRow env now db r = (db, []) := by
  unfold pollRow
  cases hd : r.deadline with
  | none => rfl
  | some d =>
    simp only [warnStep, expireStep, h, Bool.and_false]
    split_ifs <;> simp_all

theorem pollRow_expire (env : PollEnv) (now : Int) (db : DB)
    (o : Orientation) (d : Int) (hdl : o.deadline = some d)
    (hexp : d - now ≤ 0) (hh : o.expired_handled = false)
    (hp : env.present o.discord_id = true) :
    pollRow env now db o =
      (setExpiredHandled db o.discord_id,
       [PollEvent.expiredDM o.discord_id (env.dmOk o.discord_id),
        PollEvent.robloxRemove o.discord_id (env.robloxOk o.discord_id),
        PollEvent.kick o.discord_id (env.kickOk o.discord_id)]) := by
  have hw : ¬(o.warned_5d = false ∧ ORIENT_WARN_LO ≤ d - now ∧
      d - now ≤ ORIENT_WARN_HI) := by
    rintro ⟨-, h2, -⟩
    unfold ORIENT_WARN_LO at h2
    omega
  have hwstep : warnStep env now db o d = (db, []) := by
    rw [warnStep, if_neg hw]
  have hestep : expireStep env now db o d =
      (setExpiredHandled db o.discord_id,
       [PollEvent.expiredDM o.discord_id (env.dmOk o.discord_id),
        PollEvent.robloxRemove o.discord_id (env.robloxOk o.discord_id),
        PollEvent.kick o.discord_id (env.kickOk o.discord_id)]) := by
    rw [expireStep, if_pos ⟨hexp, hh⟩, if_pos hp]
  unfold pollRow
  rw [hdl]
  simp only [hwstep]
  simp [hestep]

theorem pollRow_no_expiry_of_handled (env : PollEnv) (now : Int) (db : DB)
    (r : Orientation) (m : Nat) (hh : r.expired_handled = true) :
    (pollRow env now db r).2.filter (expiryEventFor m) = [] := by
  unfold pollRow
  cases hd : r.deadline with
  | none => rfl
  | some d =>
    simp only [warnStep, expireStep, hh]
    split_ifs <;> simp_all [expiryEventFor]

theorem expiryEventFor_eq_false_of_ne (m : Nat) (e : PollEvent)
    (h : eventMember e ≠ m) : expiryEventFor m e = false := by
  cases e <;> simp_all [eventMember, expiryEventFor]

/-! Fold-level lemmas for the poll. -/

theorem pollRows_frame (env : PollEnv) (now : Int) (rows : List Orientation)
    (db : DB) (m : Nat) (h : ∀ r ∈ rows, r.discord_id ≠ m) :
    getOrientation (pollRows env now db rows).1 m = getOrientation db m ∧
      ∀ e ∈ (pollRows env now db rows).2, eventMember e ≠ m := by
  induction rows generalizing db with
  | nil => exact ⟨rfl, by intro e he; simp [pollRows] at he⟩
  | cons r rest ih =>
    have hr : r.discord_id ≠ m := h r (List.mem_cons_self r rest)
    have hrest : ∀ r' ∈ rest, r'.discord_id ≠ m :=
      fun r' h' => h r' (List.mem_cons_of_mem r h')
    have hx := pollRow_getOrientation_ne env now db r m (fun he => hr he.symm)
    obtain ⟨ih1, ih2⟩ := ih (pollRow env now db r).1 hrest
    refine ⟨by simp only [pollRows]; rw [ih1, hx], ?_⟩
    intro e he
    simp only [pollRows, List.mem_append] at he
    rcases he with he | he
    · rw [pollRow_events_member env now db r e he]; exact hr
    · exact ih2 e he

theorem pollRows_keys (env : PollEnv) (now : Int) (rows : List Orientation)
    (db : DB) :
    (pollRows env now db rows).1.orientations.map (fun o => o.discord_id) =
      db.orientations.map (fun o => o.discord_id) := by
  induction rows generalizing db with
  | nil => rfl
  | cons r rest ih =>
    simp only [pollRows]
    rw [ih, pollRow_keys]

theorem pollRows_absent (env : PollEnv) (now : Int) (rows : List Orientation)
    (db : DB) (m : Nat) (habs : env.present m = false) :
    getOrientation (pollRows env now db rows).1 m = getOrientation db m ∧
      ∀ e ∈ (pollRows env now db rows).2, eventMember e ≠ m := by
  induction rows generalizing db with
  | nil => exact ⟨rfl, by intro e he; simp [pollRows] at he⟩
  | cons r rest ih =>
    by_cases hk : r.discord_id = m
    · have hid : pollRow env now db r = (db, []) :=
        pollRow_absent env now db r (hk ▸ habs)
      obtain ⟨ih1, ih2⟩ := ih db
      constructor
      · simp only [pollRows, hid]
        exact ih1
      · intro e he
        simp only [pollRows, hid, List.nil_append] at he
        exact ih2 e he
    · have hx := pollRow_getOrientation_ne env now db r m (fun he => hk he.symm)
      obtain ⟨ih1, ih2⟩ := ih (pollRow env now db r).1
      constructor
      · simp only [pollRows]; rw [ih1, hx]
      · intro e he
        simp only [pollRows, List.mem_append] at he
        rcases he with he | he
        · rw [pollRow_events_member env now db r e he]; exact hk
        · exact ih2 e he

theorem pollRows_no_expiry_of_handled (env : PollEnv) (now : Int)
    (rows : List Orientation) (db : DB) (m : Nat)
    (h : ∀ r ∈ rows, r.discord_id = m → r.expired_handled = true) :
    (pollRows env now db rows).2.filter (expiryEventFor m) = [] := by
  induction rows generalizing db with
  | nil => rfl
  | cons r rest ih =>
    have hrest : ∀ r' ∈ rest, r'.discord_id = m → r'.expired_handled = true :=
      fun r' h' => h r' (List.mem_cons_of_mem r h')
    simp only [pollRows, List.filter_append]
    rw [ih (pollRow env now db r).1 hrest, List.append_nil]
    by_cases hk : r.discord_id = m
    · exact pollRow_no_expiry_of_handled env now db r m
        (h r (List.mem_cons_self r rest) hk)
    · rw [List.filter_eq_nil_iff]
      intro e he
      have := pollRow_events_member env now db r e he
      rw [expiryEventFor_eq_false_of_ne m e (this ▸ hk)]
      simp

theorem pollRows_expiry (env : PollEnv) (now : Int)
    (rows : List Orientation) (db : DB) (m : Nat) (o : Orientation) (d : Int)
    (hkeys : (rows.map (fun r => r.discord_id)).Nodup) (hmem : o ∈ rows)
    (hkey : o.discord_id = m) (hget : getOrientation db m = some o)
    (hdl : o.deadline = some d) (hexp : d - now ≤ 0)
    (hh : o.expired_handled = false) (hp : env.present m = true) :
    getOrientation (pollRows env now db rows).1 m =
        some { o with expired_handled := true } ∧
      (pollRows env now db rows).2.filter (expiryEventFor m) =
        [PollEvent.expiredDM m (env.dmOk m),
         PollEvent.robloxRemove m (env.robloxOk m),
         PollEvent.kick m (env.kickOk m)] := by
  induction rows generalizing db with
  | nil => cases hmem
  | cons r rest ih =>
    have hndtl := hkeys
    rw [List.map_cons, List.nodup_cons] at hndtl
    rcases List.mem_cons.mp hmem with h | h
    · subst h
      have hx : pollRow env now db o =
          (setExpiredHandled db m,
           [PollEvent.expiredDM m (env.dmOk m),
            PollEvent.robloxRemove m (env.robloxOk m),
            PollEvent.kick m (env.kickOk m)]) := by
        rw [pollRow_expire env now db o d hdl hexp hh (hkey ▸ hp)]
        rw [hkey]
      have hrest : ∀ r' ∈ rest, r'.discord_id ≠ m := by
        intro r' h' he
        exact hndtl.1 (hkey ▸ he ▸ List.mem_map_of_mem (fun x => x.discord_id) h')
      have hset : getOrientation (setExpiredHandled db m) m =
          some { o with expired_handled := true } := by
        unfold setExpiredHandled
        rw [getOrientation_updateOrientations db m
            (fun x => { x with expired_handled := true }) (fun _ => rfl) m]
        rw [if_pos rfl, hget]
        rfl
      obtain ⟨hf1, hf2⟩ :=
        pollRows_frame env now rest (setExpiredHandled db m) m hrest
      constructor
      · simp only [pollRows, hx]
        rw [hf1, hset]
      · simp only [pollRows, hx, List.filter_append]
        have : (pollRows env now (setExpiredHandled db m) rest).2.filter
            (expiryEventFor m) = [] := by
          rw [List.filter_eq_nil_iff]
          intro e he
          rw [expiryEventFor_eq_false_of_ne m e (hf2 e he)]
          simp
        rw [this, List.append_nil]
        simp [expiryEventFor]
    · have hrne : r.discord_id ≠ m := by
        intro he
        apply hndtl.1
        rw [he, ← hkey]
        exact List.mem_map_of_mem (fun x => x.discord_id) h
      have hx := pollRow_getOrientation_ne env now db r m (fun he => hrne he.symm)
      have hget' : getOrientation (pollRow env now db r).1 m = some o := by
        rw [hx]; exact hget
      obtain ⟨ih1, ih2⟩ := ih (pollRow env now db r).1 hndtl.2 h hget'
      constructor
      · simp only [pollRows]
        exact ih1
      · simp only [pollRows, List.filter_append]
        rw [ih2]
        have : (pollRow env now db r).2.filter (expiryEventFor m) = [] := by
          rw [List.filter_eq_nil_iff]
          intro e he
          have := pollRow_events_member env now db r e he
          rw [expiryEventFor_eq_false_of_ne m e (this ▸ hrne)]
          simp
        rw [this, List.nil_append]

/-- Orientation record for the C6 scenario: assigned at 0, deadline
14 days later (1209600 s), not passed, latches clear. -/
def c6rec : Orientation :=
  { discord_id := 7, assigned_at := some 0, deadline := some 1209600
    passed := false, passed_at := none, warned_5d := false
    expired_handled := false }

/-- Store for the C6 scenario: the single orientation record `c6rec`. -/
def c6db : DB :=
  { weekly_tasks := [], weekly_task_logs := [], roblox_time := []
    roblox_sessions := [], roblox_verification := [], strikes := []
    next_strike_id := 1, orientations := [c6rec], activity_excuses := [] }

/-- Environment in which every member resolves and every external step
succeeds. -/
def c6envPresent : PollEnv :=
  { alertChannel := true, present := fun _ => true, dmOk := fun _ => true
    robloxOk := fun _ => true, kickOk := fun _ => true }

/-- Environment in which `find_member` resolves nobody. -/
def c6envAbsent : PollEnv :=
  { alertChannel := true, present := fun _ => false, dmOk := fun _ => true
    robloxOk := fun _ => true, kickOk := fun _ => true }

/-- Claim C6 counterexample.  Record `c6rec` is expired
(`deadline - now = -1 ≤ 0`) with `expired_handled = false`, yet a poll
run in which its member does not resolve to a present guild member
(`find_member` returns `None`, main.py line 1227) performs no
enforcement and does not set the latch: the claim's "for every
orientation record ... sets `expired_handled = true`" fails. -/
theorem orientation_expiry_unresolved_counterexample :
    (getOrientation c6db 7 = some c6rec ∧ c6rec.expired_handled = false ∧
        c6rec.deadline = some 1209600 ∧ ((1209600 : Int) - 1209601 ≤ 0)) ∧
      (orientation_reminder_loop c6envAbsent 1209601 c6db).1 = c6db ∧
      (orientation_reminder_loop c6envAbsent 1209601 c6db).2 = [] := by
  decide

/-- Claim C6 (amended): for every non-passed orientation record whose
deadline has passed (`deadline - now ≤ 0`) with `expired_handled =
false`, and whose member resolves to a present guild member, one run of
the orientation poll performs the expiry enforcement — the best-effort
direct notice, the external deprovisioning call and the platform
removal, in that order, regardless of each step's outcome — and sets
`expired_handled = true` exactly once; once the latch is set, no
subsequent poll run ever performs expiry enforcement for that record
again. -/
theorem orientation_expiry_enforcement (db : DB) (env : PollEnv) (now : Int)
    (m : Nat) (o : Orientation) (d : Int)
    (hnd : (db.orientations.map (fun x => x.discord_id)).Nodup)
    (hget : getOrientation db m = some o) (hpass : o.passed = false)
    (hdl : o.deadline = some d) (hexp : d - now ≤ 0)
    (hh : o.expired_handled = false) (hp : env.present m = true) :
    getOrientation (orientation_reminder_loop env now db).1 m =
        some { o with expired_handled := true } ∧
      (orientation_reminder_loop env now db).2.filter (expiryEventFor m) =
        [PollEvent.expiredDM m (env.dmOk m),
         PollEvent.robloxRemove m (env.robloxOk m),
         PollEvent.kick m (env.kickOk m)] ∧
      ∀ env' : PollEnv, ∀ now' : Int,
        (orientation_reminder_loop env' now'
            (orientation_reminder_loop env now db).1).2.filter
          (expiryEventFor m) = [] := by
  have hkey : o.discord_id = m := by
    have h := List.find?_some hget
    simpa using h
  have hmem0 : o ∈ db.orientations := List.mem_of_find?_eq_some hget
  have hmem : o ∈ db.orientations.filter (fun x => x.passed == false) := by
    rw [List.mem_filter]
    exact ⟨hmem0, by simp [hpass]⟩
  have hkeys : ((db.orientations.filter (fun x => x.passed == false)).map
      (fun r => r.discord_id)).Nodup :=
    List.Nodup.sublist
      ((List.filter_sublist db.orientations).map (fun r => r.discord_id)) hnd
  obtain ⟨hA, hB⟩ := pollRows_expiry env now
    (db.orientations.filter (fun x => x.passed == false)) db m o d hkeys hmem
    hkey hget hdl hexp hh hp
  refine ⟨hA, hB, ?_⟩
  intro env' now'
  have hkeys1 : ((orientation_reminder_loop env now db).1.orientations.map
      (fun x => x.discord_id)).Nodup := by
    have hk := pollRows_keys env now
      (db.orientations.filter (fun x => x.passed == false)) db
    have hk' : (orientation_reminder_loop env now db).1.orientations.map
        (fun x => x.discord_id) =
        db.orientations.map (fun x => x.discord_id) := hk
    rw [hk']
    exact hnd
  apply pollRows_no_expiry_of_handled
  intro r hr hrm
  have hr0 : r ∈ (orientation_reminder_loop env now db).1.orientations :=
    (List.mem_filter.mp hr).1
  have hfind : getOrientation (orientation_reminder_loop env now db).1 m =
      some r := find?_eq_of_mem_nodup _ m r hkeys1 hr0 hrm
  have hA' : getOrientation (orientation_reminder_loop env now db).1 m =
      some { o with expired_handled := true } := hA
  rw [hA'] at hfind
  injection hfind with hr1
  rw [← hr1]

/-- Witness for `orientation_expiry_enforcement`: the spec scenario.
Orientation assigned at 0 with deadline 1209600 (14 days); a poll at
1209601 (one second past the deadline) enforces and latches; a poll 30
minutes later performs no further enforcement. -/
theorem orientation_expiry_enforcement_witness :
    getOrientation (orientation_reminder_loop c6envPresent 1209601 c6db).1 7 =
        some { c6rec with expired_handled := true } ∧
      (orientation_reminder_loop c6envPresent 1209601 c6db).2.filter
          (expiryEventFor 7) =
        [PollEvent.expiredDM 7 true, PollEvent.robloxRemove 7 true,
         PollEvent.kick 7 true] ∧
      (orientation_reminder_loop c6envPresent 1211460
          (orientation_reminder_loop c6envPresent 1209601 c6db).1).2.filter
        (expiryEventFor 7) = [] := by
  have h := orientation_expiry_enforcement c6db c6envPresent 1209601 7 c6rec
    1209600 (by decide) (by decide) (by decide) (by decide) (by decide)
    (by decide) rfl
  exact ⟨h.1, h.2.1, h.2.2 c6envPresent 1211460⟩

/-- Claim C9: a non-passed orientation record whose member cannot be
resolved to a present guild member is left entirely unchanged by a poll
run — no warning, notice, deprovisioning call or removal is performed
for it and neither latch moves — even when its deadline has already
passed, so the record remains eligible on later polls. -/
theorem orientation_unresolved_member_frame (db : DB) (env : PollEnv)
    (now : Int) (m : Nat) (o : Orientation)
    (hget : getOrientation db m = some o) (_hpass : o.passed = false)
    (habs : env.present m = false) :
    getOrientation (orientation_reminder_loop env now db).1 m = some o ∧
      (orientation_reminder_loop env now db).2.filter
        (fun e => eventMember e == m) = [] := by
  obtain ⟨h1, h2⟩ := pollRows_absent env now
    (db.orientations.filter (fun x => x.passed == false)) db m habs
  constructor
  · exact h1.trans hget
  · rw [List.filter_eq_nil_iff]
    intro e he
    simpa using h2 e he

/-- Orientation record for the C9 witness: deadline already passed,
latches clear, not passed. -/
def c9rec : Orientation :=
  { discord_id := 8, assigned_at := some 0, deadline := some 100
    passed := false, passed_at := none, warned_5d := false
    expired_handled := false }

/-- Store for the C9 witness. -/
def c9db : DB :=
  { weekly_tasks := [], weekly_task_logs := [], roblox_time := []
    roblox_sessions := [], roblox_verification := [], strikes := []
    next_strike_id := 1, orientations := [c9rec], activity_excuses := [] }

/-- Environment for the C9 witness: member 8 does not resolve. -/
def c9env : PollEnv :=
  { alertChannel := true, present := fun _ => false, dmOk := fun _ => true
    robloxOk := fun _ => true, kickOk := fun _ => true }

/-- Witness for `orientation_unresolved_member_frame`: a poll at time
500, well past the deadline 100, leaves the unresolvable record `c9rec`
unchanged and performs no action for member 8. -/
theorem orientation_unresolved_member_frame_witness :
    getOrientation (orientation_reminder_loop c9env 500 c9db).1 8 =
        some c9rec ∧
      (orientation_reminder_loop c9env 500 c9db).2.filter
        (fun e => eventMember e == 8) = [] :=
  orientation_unresolved_member_frame c9db c9env 500 8 c9rec (by decide)
    (by decide) rfl

/-! Orientation assignment (main.py lines 462-477 and 880-893). -/

/-- The row inserted when an orientation window opens: `assigned_at =
now`, `deadline = now + timedelta(days=14)`, flags clear. -/
def newOrientationRecord (m : Nat) (now : Int) : Orientation :=
  { discord_id := m, assigned_at := some now
    deadline := some (now + 14 * 86400), passed := false, passed_at := none
    warned_5d := false, expired_handled := false }

/-- The role-grant branch of `on_member_update` (main.py lines 462-477):
when the Scientific Trainee role is newly added, insert an orientation
window with `ON CONFLICT (discord_id) DO NOTHING` — an insert-if-absent
keyed by the member. -/
def on_member_update (db : DB) (m : Nat) (traineeNewlyAdded : Bool)
    (now : Int) : DB :=
  if traineeNewlyAdded then
    if (getOrientation db m).isSome then db
    else { db with orientations := db.orientations ++ [newOrientationRecord m now] }
  else db

/-- `ensure_orientation_record` (main.py lines 880-893): return
unchanged if a row already exists; otherwise insert a fresh window when
the member currently holds the Scientific Trainee role. -/
def ensure_orientation_record (db : DB) (m : Nat) (hasTraineeRole : Bool)
    (now : Int) : DB :=
  if (getOrientation db m).isSome then db
  else if hasTraineeRole then
    { db with orientations := db.orientations ++ [newOrientationRecord m now] }
  else db

theorem find?_append_nil_left (l : List Orientation)
    (p : Orientation → Bool) (r : Orientation) (h : l.find? p = none)
    (hr : p r = true) : (l ++ [r]).find? p = some r := by
  induction l with
  | nil => simp [List.find?, hr]
  | cons a t ih =>
    cases hpa : p a with
    | true => simp [List.find?, hpa] at h
    | false =>
      simp only [List.cons_append, List.find?, hpa] at h ⊢
      exact ih h

theorem getOrientation_insert_self (db : DB) (m : Nat) (now : Int)
    (hnone : getOrientation db m = none) :
    getOrientation
        { db with orientations := db.orientations ++ [newOrientationRecord m now] }
        m = some (newOrientationRecord m now) :=
  find?_append_nil_left db.orientations _ _ hnone (by simp [newOrientationRecord])

theorem getOrientation_on_member_update_isSome (db : DB) (m : Nat)
    (now : Int) :
    (getOrientation (on_member_update db m true now) m).isSome = true := by
  unfold on_member_update
  rw [if_pos rfl]
  by_cases h : (getOrientation db m).isSome
  · rw [if_pos h]; exact h
  · rw [if_neg h]
    have hn : getOrientation db m = none := by
      cases hx : getOrientation db m with
      | none => rfl
      | some v => rw [hx] at h; simp at h
    rw [getOrientation_insert_self db m now hn]
    rfl

theorem getOrientation_ensure_isSome (db : DB) (m : Nat) (now : Int) :
    (getOrientation (ensure_orientation_record db m true now) m).isSome = true := by
  unfold ensure_orientation_record
  by_cases h : (getOrientation db m).isSome
  · rw [if_pos h]; exact h
  · rw [if_neg h, if_pos rfl]
    have hn : getOrientation db m = none := by
      cases hx : getOrientation db m with
      | none => rfl
      | some v => rw [hx] at h; simp at h
    rw [getOrientation_insert_self db m now hn]
    rfl

theorem on_member_update_of_isSome (db : DB) (m : Nat) (now : Int)
    (h : (getOrientation db m).isSome = true) :
    on_member_update db m true now = db := by
  unfold on_member_update
  rw [if_pos rfl, if_pos h]

theorem ensure_orientation_of_isSome (db : DB) (m : Nat) (b : Bool)
    (now : Int) (h : (getOrientation db m).isSome = true) :
    ensure_orientation_record db m b now = db := by
  unfold ensure_orientation_record
  rw [if_pos h]

/-- Claim C8: orientation assignment is idempotent.  After a first
assignment — whether through the role-grant event or through the lazy
record-creation path with the role held — any second assignment by
either path leaves the whole store, and in particular the record's
`assigned_at` and `deadline`, unchanged, regardless of the later time
`t2` or of whether the member still holds the role on the lazy path. -/
theorem orientation_assignment_idempotent (db : DB) (m : Nat)
    (t1 t2 : Int) (b : Bool) :
    on_member_update (on_member_update db m true t1) m true t2 =
        on_member_update db m true t1 ∧
      ensure_orientation_record (on_member_update db m true t1) m b t2 =
        on_member_update db m true t1 ∧
      ensure_orientation_record (ensure_orientation_record db m true t1) m b t2 =
        ensure_orientation_record db m true t1 ∧
      on_member_update (ensure_orientation_record db m true t1) m true t2 =
        ensure_orientation_record db m true t1 := by
  have h1 := getOrientation_on_member_update_isSome db m t1
  have h2 := getOrientation_ensure_isSome db m t1
  exact ⟨on_member_update_of_isSome _ m t2 h1,
    ensure_orientation_of_isSome _ m b t2 h1,
    ensure_orientation_of_isSome _ m b t2 h2,
    on_member_update_of_isSome _ m t2 h2⟩

/-! The `/roblox` session webhook (main.py lines 389-449). -/

/-- HTTP statuses returned by the webhook handler. -/
inductive WebhookStatus where
  | ok200
  | unauthorized401
deriving DecidableEq, Repr

/-- Store operations the webhook handler can perform, in order. -/
inductive WebStoreOp where
  | selectVerification (robloxId : Option Nat)
  | upsertSession (robloxId : Option Nat) (start : Int)
  | selectSession (robloxId : Option Nat)
  | deleteSession (robloxId : Option Nat)
  | upsertTime (memberId : Nat) (secs : Nat)
  | selectTime (memberId : Nat)
deriving DecidableEq, Repr

/-- `SELECT discord_id FROM roblox_verification WHERE roblox_id = $1`
(main.py lines 400-402); a missing `robloxId` in the body binds SQL
NULL and matches nothing. -/
def lookupVerification (db : DB) (rid : Option Nat) : Option Nat :=
  match rid with
  | none => none
  | some r => (db.roblox_verification.find? (fun p => p.2 == r)).map (fun p => p.1)

/-- `SELECT start_time FROM roblox_sessions WHERE roblox_id = $1`
(main.py lines 423-425). -/
def lookupSession (db : DB) (rid : Option Nat) : Option Int :=
  match rid with
  | none => none
  | some r => (db.roblox_sessions.find? (fun p => p.1 == r)).map (fun p => p.2)

/-- `INSERT INTO roblox_sessions ... ON CONFLICT (roblox_id) DO UPDATE
SET start_time = $2` (main.py lines 407-411). -/
def upsertSessionRow (db : DB) (rid : Nat) (t : Int) : DB :=
  let rows :=
    if (db.roblox_sessions.find? (fun p => p.1 == rid)).isSome then
      db.roblox_sessions.map (fun p => if p.1 == rid then (p.1, t) else p)
    else db.roblox_sessions ++ [(rid, t)]
  { db with roblox_sessions := rows }

/-- `DELETE FROM roblox_sessions WHERE roblox_id = $1` (main.py line 427). -/
def deleteSessionRow (db : DB) (rid : Nat) : DB :=
  let rows := db.roblox_sessions.filter (fun p => !(p.1 == rid))
  { db with roblox_sessions := rows }

/-- `INSERT INTO roblox_time ... ON CONFLICT (member_id) DO UPDATE SET
time_spent = roblox_time.time_spent + $2` (main.py lines 429-433). -/
def addTimeRow (db : DB) (memberId : Nat) (secs : Nat) : DB :=
  let rows :=
    if (db.roblox_time.find? (fun p => p.1 == memberId)).isSome then
      db.roblox_time.map (fun p => if p.1 == memberId then (p.1, p.2 + secs) else p)
    else db.roblox_time ++ [(memberId, secs)]
  { db with roblox_time := rows }

/-- `SD_BOT.roblox_handler` (main.py lines 389-449): reject with 401
when the X-Secret-Key header does not equal the configured secret,
before touching the store; otherwise resolve the linked member and
handle the "joined"/"left" session events.  Embeds and prints are
presentation.  Returns the HTTP status, the resulting store, and the
ordered list of store operations performed. -/
def roblox_handler (apiSecret : Option String) (headerSecret : Option String)
    (robloxId : Option Nat) (status : Option String) (db : DB) (now : Int) :
    WebhookStatus × DB × List WebStoreOp :=
  if headerSecret ≠ apiSecret then (WebhookStatus.unauthorized401, db, [])
  else
    match lookupVerification db robloxId with
    | none => (WebhookStatus.ok200, db, [WebStoreOp.selectVerification robloxId])
    | some discordId =>
      if status = some "joined" then
        match robloxId with
        | some rid =>
          (WebhookStatus.ok200, upsertSessionRow db rid now,
           [WebStoreOp.selectVerification robloxId,
            WebStoreOp.upsertSession robloxId now])
        | none => (WebhookStatus.ok200, db, [WebStoreOp.selectVerification robloxId])
      else if status = some "left" then
        match robloxId, lookupSession db robloxId with
        | some rid, some start =>
          let dur := (now - start).toNat
          (WebhookStatus.ok200, addTimeRow (deleteSessionRow db rid) discordId dur,
           [WebStoreOp.selectVerification robloxId,
            WebStoreOp.selectSession robloxId, WebStoreOp.deleteSession robloxId,
            WebStoreOp.upsertTime discordId dur, WebStoreOp.selectTime discordId])
        | _, _ =>
          (WebhookStatus.ok200, db,
           [WebStoreOp.selectVerification robloxId,
            WebStoreOp.selectSession robloxId, WebStoreOp.selectTime discordId])
      else (WebhookStatus.ok200, db, [WebStoreOp.selectVerification robloxId])

/-- Claim C10: a `/roblox` webhook request whose X-Secret-Key header
does not equal the configured shared secret is answered with HTTP 401
and performs no store reads or mutations: the store is returned
unchanged — no session row opened or closed, no time counter change —
and the operation trace is empty. -/
theorem roblox_handler_unauthorized (apiSecret headerSecret : Option String)
    (robloxId : Option Nat) (status : Option String) (db : DB) (now : Int)
    (h : headerSecret ≠ apiSecret) :
    roblox_handler apiSecret headerSecret robloxId status db now =
      (WebhookStatus.unauthorized401, db, []) := by
  simp [roblox_handler, h]

/-- Store for the C10 witness. -/
def c10db : DB :=
  { weekly_tasks := [], weekly_task_logs := [], roblox_time := [(5, 60)]
    roblox_sessions := [(5, 0)], roblox_verification := [(1, 5)]
    strikes := [], next_strike_id := 1, orientations := []
    activity_excuses := [] }

/-- Witness for `roblox_handler_unauthorized`: a request carrying the
wrong secret is rejected with 401 and the store — including the open
session and the time counter — is untouched. -/
theorem roblox_handler_unauthorized_witness :
    roblox_handler (some "secret") (some "wrong") (some 5) (some "joined")
        c10db 100 = (WebhookStatus.unauthorized401, c10db, []) :=
  roblox_handler_unauthorized (some "secret") (some "wrong") (some 5)
    (some "joined") c10db 100 (by decide)

/-! `/strikes_remove` (main.py lines 1020-1036). -/

/-- The ordering of `ORDER BY expires_at ASC` (main.py line 1026). -/
def strikeLe (a b : Strike) : Prop := a.expires_at ≤ b.expires_at

instance strikeLeDecidable : DecidableRel strikeLe :=
  fun a b => Int.decLe a.expires_at b.expires_at

instance strikeLeTotal : IsTotal Strike strikeLe :=
  ⟨fun a b => Int.le_total a.expires_at b.expires_at⟩

instance strikeLeTrans : IsTrans Strike strikeLe :=
  ⟨fun _ _ _ => Int.le_trans⟩

/-- Outcome reported by `/strikes_remove`: either the no-active-strikes
message (main.py line 1030) or the removed count with the new active
count (line 1036). -/
inductive RemoveOutcome where
  | nothingToDo
  | removedSome (removed : Nat) (remaining : Nat)
deriving DecidableEq, Repr

/-- `SELECT strike_id FROM strikes WHERE member_id=$1 AND expires_at >
$2 ORDER BY expires_at ASC LIMIT $3` (main.py lines 1025-1028): up to
`count` active strikes, soonest expiry first.  Rows tied on
`expires_at` come in an unspecified SQL order; the sort models one
consistent choice. -/
def selectedStrikes (db : DB) (m : Nat) (count : Nat) (now : Int) :
    List Strike :=
  (List.insertionSort strikeLe (activeStrikesOf db m now)).take count

/-- `ids = [r['strike_id'] for r in rows]` (main.py line 1032). -/
def removedIds (db : DB) (m : Nat) (count : Nat) (now : Int) : List Nat :=
  (selectedStrikes db m count now).map (fun s => s.strike_id)

/-- The strike rows surviving `DELETE FROM strikes WHERE strike_id =
ANY($1::int[])` (main.py line 1033). -/
def keptStrikes (db : DB) (m : Nat) (count : Nat) (now : Int) : List Strike :=
  db.strikes.filter (fun s => decide (s.strike_id ∉ removedIds db m count now))

/-- The `/strikes_remove` command body (main.py lines 1020-1036): select
up to `count` active strikes soonest-expiry-first; if none, report
nothing to do (`if not rows`, line 1029); otherwise delete the selected
ids and re-count the member's active strikes at the same `now`
(line 1034), reporting how many were removed and the new active count. -/
def strikes_remove (db : DB) (m : Nat) (count : Nat) (now : Int) :
    DB × RemoveOutcome :=
  if (selectedStrikes db m count now).isEmpty then
    (db, RemoveOutcome.nothingToDo)
  else
    ({ db with strikes := keptStrikes db m count now },
     RemoveOutcome.removedSome (removedIds db m count now).length
       (activeStrikeCount { db with strikes := keptStrikes db m count now } m now))

theorem mem_activeStrikesOf (db : DB) (m : Nat) (now : Int) (s : Strike) :
    s ∈ activeStrikesOf db m now ↔
      s ∈ db.strikes ∧ s.member_id = m ∧ now < s.expires_at := by
  simp [activeStrikesOf, List.mem_filter, and_assoc]

theorem filter_filter_and (p q : Strike → Bool) (l : List Strike) :
    (l.filter q).filter p = l.filter (fun a => q a && p a) := by
  induction l with
  | nil => rfl
  | cons a t ih =>
    by_cases hq : q a = true <;> by_cases hp : p a = true <;>
      simp [hq, hp, ih]

theorem kept_active_perm (db : DB) (m : Nat) (count : Nat) (now : Int)
    (hids : (db.strikes.map (fun s => s.strike_id)).Nodup) :
    (activeStrikesOf { db with strikes := keptStrikes db m count now } m now).Perm
      ((List.insertionSort strikeLe (activeStrikesOf db m now)).drop count) := by
  have hperm := List.perm_insertionSort strikeLe (activeStrikesOf db m now)
  have hrid : removedIds db m count now =
      (List.take count (List.insertionSort strikeLe (activeStrikesOf db m now))).map
        (fun s => s.strike_id) := rfl
  have hstart : activeStrikesOf { db with strikes := keptStrikes db m count now } m now =
      (activeStrikesOf db m now).filter
        (fun s => decide (s.strike_id ∉ removedIds db m count now)) := by
    show (db.strikes.filter (fun s => decide (s.strike_id ∉ removedIds db m count now))).filter
        (fun s => s.member_id == m && decide (now < s.expires_at)) =
      (db.strikes.filter (fun s => s.member_id == m && decide (now < s.expires_at))).filter
        (fun s => decide (s.strike_id ∉ removedIds db m count now))
    rw [filter_filter_and, filter_filter_and]
    exact List.filter_congr (fun a _ => by rw [Bool.and_comm])
  rw [hstart]
  have h2 : ((activeStrikesOf db m now).filter
      (fun s => decide (s.strike_id ∉ removedIds db m count now))).Perm
      ((List.insertionSort strikeLe (activeStrikesOf db m now)).filter
        (fun s => decide (s.strike_id ∉ removedIds db m count now))) :=
    (List.Perm.filter _ hperm).symm
  have hT0 : (List.take count (List.insertionSort strikeLe (activeStrikesOf db m now))).filter
      (fun s => decide (s.strike_id ∉ removedIds db m count now)) = [] := by
    rw [List.filter_eq_nil_iff]
    intro t ht
    simp only [decide_eq_true_eq, not_not]
    rw [hrid]
    exact List.mem_map_of_mem _ ht
  have hANod : ((activeStrikesOf db m now).map (fun s => s.strike_id)).Nodup :=
    List.Nodup.sublist
      ((List.filter_sublist db.strikes).map (fun s => s.strike_id)) hids
  have hSNod : ((List.insertionSort strikeLe (activeStrikesOf db m now)).map
      (fun s => s.strike_id)).Nodup := (hperm.map _).nodup_iff.mpr hANod
  have hD : ((List.insertionSort strikeLe (activeStrikesOf db m now)).drop count).filter
      (fun s => decide (s.strike_id ∉ removedIds db m count now)) =
      (List.insertionSort strikeLe (activeStrikesOf db m now)).drop count := by
    rw [List.filter_eq_self]
    intro a ha
    simp only [decide_eq_true_eq]
    rw [hrid]
    intro hmem
    rcases List.mem_map.mp hmem with ⟨t, htT, htid⟩
    have h' := hSNod
    rw [← List.take_append_drop count
        (List.insertionSort strikeLe (activeStrikesOf db m now)),
      List.map_append, List.nodup_append] at h'
    exact h'.2.2 (htid ▸ List.mem_map_of_mem (fun s => s.strike_id) htT)
      (List.mem_map_of_mem (fun s => s.strike_id) ha)
  have h3 : (List.insertionSort strikeLe (activeStrikesOf db m now)).filter
        (fun s => decide (s.strike_id ∉ removedIds db m count now)) =
      (List.insertionSort strikeLe (activeStrikesOf db m now)).drop count := by
    conv_lhs => rw [← List.take_append_drop count
      (List.insertionSort strikeLe (activeStrikesOf db m now))]
    rw [List.filter_append, hT0, hD, List.nil_append]
  rw [← h3]
  exact h2

/-- Claim C7: removing up to `count` strikes from a member deletes at
most `count` of that member's active strikes — exactly
`min count active` of them, chosen soonest expiry first: nothing but
active strikes of that member is deleted, and every deleted strike
expires no later than every surviving active strike of that member —
and reports the number removed together with the new active count;
when the member has no active strikes it removes nothing and reports
that there is nothing to do.  (`count` is at least 1 by the command's
`Range[int, 1, 10]`; strike ids are unique by the SERIAL primary key.) -/
theorem strikes_remove_spec (db : DB) (m : Nat) (count : Nat) (now : Int)
    (hc : 1 ≤ count) (hids : (db.strikes.map (fun s => s.strike_id)).Nodup) :
    (activeStrikeCount db m now = 0 →
        strikes_remove db m count now = (db, RemoveOutcome.nothingToDo)) ∧
      (0 < activeStrikeCount db m now →
        (strikes_remove db m count now).2 =
            RemoveOutcome.removedSome (min count (activeStrikeCount db m now))
              (activeStrikeCount db m now -
                min count (activeStrikeCount db m now)) ∧
          activeStrikeCount (strikes_remove db m count now).1 m now =
            activeStrikeCount db m now -
              min count (activeStrikeCount db m now) ∧
          (∀ s ∈ (strikes_remove db m count now).1.strikes, s ∈ db.strikes) ∧
          (∀ s ∈ db.strikes, s ∉ (strikes_remove db m count now).1.strikes →
            s.member_id = m ∧ now < s.expires_at) ∧
          (∀ s ∈ db.strikes, s ∉ (strikes_remove db m count now).1.strikes →
            ∀ k ∈ (strikes_remove db m count now).1.strikes,
              k.member_id = m → now < k.expires_at →
                s.expires_at ≤ k.expires_at)) := by
  constructor
  · intro h0
    have hA : activeStrikesOf db m now = [] := List.length_eq_zero.mp h0
    have hsel : selectedStrikes db m count now = [] := by
      unfold selectedStrikes
      rw [hA]
      simp [List.insertionSort]
    unfold strikes_remove
    rw [if_pos (by rw [hsel]; rfl)]
  · intro hpos
    have hperm := List.perm_insertionSort strikeLe (activeStrikesOf db m now)
    have hSlen : (List.insertionSort strikeLe (activeStrikesOf db m now)).length =
        activeStrikeCount db m now := hperm.length_eq
    have hTlen : (selectedStrikes db m count now).length =
        min count (activeStrikeCount db m now) := by
      unfold selectedStrikes
      rw [List.length_take, hSlen]
    have hTne : ¬((selectedStrikes db m count now).isEmpty = true) := by
      rw [List.isEmpty_iff]
      intro h
      have hl := congrArg List.length h
      rw [hTlen] at hl
      simp at hl
      omega
    have heq : strikes_remove db m count now =
        ({ db with strikes := keptStrikes db m count now },
         RemoveOutcome.removedSome (removedIds db m count now).length
           (activeStrikeCount { db with strikes := keptStrikes db m count now }
             m now)) := by
      unfold strikes_remove
      rw [if_neg hTne]
    have hkperm := kept_active_perm db m count now hids
    have hkeptcount : activeStrikeCount
        { db with strikes := keptStrikes db m count now } m now =
        activeStrikeCount db m now -
          min count (activeStrikeCount db m now) := by
      have hlen : activeStrikeCount
          { db with strikes := keptStrikes db m count now } m now =
          ((List.insertionSort strikeLe (activeStrikesOf db m now)).drop
            count).length := hkperm.length_eq
      rw [hlen, List.length_drop, hSlen]
      omega
    have hidslen : (removedIds db m count now).length =
        min count (activeStrikeCount db m now) := by
      unfold removedIds
      rw [List.length_map, hTlen]
    have hTsub : ∀ t ∈ selectedStrikes db m count now,
        t ∈ activeStrikesOf db m now := by
      intro t ht
      exact hperm.subset (List.take_subset count _ ht)
    have hremoved : ∀ s ∈ db.strikes,
        s ∉ (strikes_remove db m count now).1.strikes →
        ∃ t ∈ selectedStrikes db m count now, s = t := by
      intro s hsdb hnot
      have hnot' : s ∉ keptStrikes db m count now := by
        rw [heq] at hnot
        exact hnot
      have hQ : s.strike_id ∈ removedIds db m count now := by
        by_contra hni
        exact hnot' (List.mem_filter.mpr ⟨hsdb, by simp [hni]⟩)
      rcases List.mem_map.mp hQ with ⟨t, htT, htid⟩
      refine ⟨t, htT, ?_⟩
      have htdb : t ∈ db.strikes :=
        ((mem_activeStrikesOf db m now t).mp (hTsub t htT)).1
      exact List.inj_on_of_nodup_map hids hsdb htdb htid.symm
    refine ⟨?_, ?_, ?_, ?_, ?_⟩
    · rw [heq, hidslen, hkeptcount]
    · rw [heq]
      exact hkeptcount
    · intro s hs
      rw [heq] at hs
      exact List.mem_of_mem_filter hs
    · intro s hsdb hnot
      rcases hremoved s hsdb hnot with ⟨t, htT, hst⟩
      rw [hst]
      exact ((mem_activeStrikesOf db m now t).mp (hTsub t htT)).2
    · intro s hsdb hnot k hk hkm hkexp
      rcases hremoved s hsdb hnot with ⟨t, htT, hst⟩
      rw [hst]
      rw [heq] at hk
      have hkdb : k ∈ db.strikes := List.mem_of_mem_filter hk
      have hkQ : k.strike_id ∉ removedIds db m count now := by
        have := (List.mem_filter.mp hk).2
        simpa using this
      have hkA : k ∈ activeStrikesOf db m now :=
        (mem_activeStrikesOf db m now k).mpr ⟨hkdb, hkm, hkexp⟩
      have hkS : k ∈ List.insertionSort strikeLe (activeStrikesOf db m now) :=
        hperm.symm.subset hkA
      have hkTD : k ∈ List.take count
            (List.insertionSort strikeLe (activeStrikesOf db m now)) ∨
          k ∈ List.drop count
            (List.insertionSort strikeLe (activeStrikesOf db m now)) := by
        rw [← List.mem_append, List.take_append_drop]
        exact hkS
      rcases hkTD with hkT | hkD
      · exact absurd (List.mem_map_of_mem (fun s => s.strike_id) hkT) hkQ
      · have hsorted : List.Pairwise strikeLe
            (List.insertionSort strikeLe (activeStrikesOf db m now)) :=
          List.sorted_insertionSort strikeLe (activeStrikesOf db m now)
        have h' := hsorted
        rw [← List.take_append_drop count
            (List.insertionSort strikeLe (activeStrikesOf db m now)),
          List.pairwise_append] at h'
        exact h'.2.2 t htT k hkD

/-- Store for the C7 witness: member 5 holds exactly one active strike
at time 0. -/
def c7db : DB :=
  { weekly_tasks := [], weekly_task_logs := [], roblox_time := []
    roblox_sessions := [], roblox_verification := []
    strikes := [{ strike_id := 1, member_id := 5, reason := "late"
                  issued_at := 0, expires_at := 7776000, set_by := some 9
                  auto := false }]
    next_strike_id := 2, orientations := [], activity_excuses := [] }

/-- Store for the no-active half of the C7 witness. -/
def c7db0 : DB :=
  { weekly_tasks := [], weekly_task_logs := [], roblox_time := []
    roblox_sessions := [], roblox_verification := [], strikes := []
    next_strike_id := 1, orientations := [], activity_excuses := [] }

/-- Witness for `strikes_remove_spec`: removing 2 from a member with
exactly 1 active strike removes that 1 and reports `(removed = 1,
remaining = 0)`; removing from a member with no active strikes is a
no-op reporting nothing to do. -/
theorem strikes_remove_spec_witness :
    (1 : Nat) ≤ 2 ∧ (c7db.strikes.map (fun s => s.strike_id)).Nodup ∧
      0 < activeStrikeCount c7db 5 0 ∧
      (strikes_remove c7db 5 2 0).2 = RemoveOutcome.removedSome 1 0 ∧
      activeStrikeCount (strikes_remove c7db 5 2 0).1 5 0 = 0 ∧
      strikes_remove c7db0 5 2 0 = (c7db0, RemoveOutcome.nothingToDo) :=
  ⟨by decide, by decide, by decide,
   ((strikes_remove_spec c7db 5 2 0 (by decide) (by decide)).2 (by decide)).1,
   ((strikes_remove_spec c7db 5 2 0 (by decide) (by decide)).2 (by decide)).2.1,
   (strikes_remove_spec c7db0 5 2 0 (by decide) (by decide)).1 (by decide)⟩

end SDBot
